import Mathlib

/-!
Verification of the HPF-GOC watcher (z915084508/HPF-GOC).

Shallow embedding of the pure core of the repository:
  * string normalization helpers shared by `goc_auto.py` and
    `goc_stand_100nm.py` (`normalize_callsign`, `callsign_prefix`),
  * the gate rule engine of `goc_auto.py` (`load_gate_rules`, `match_rule`,
    `select_stand_from_pool`, `predict_stand`),
  * the one-shot stand trigger and the persisted sent-flag store of
    `watcher_loop` in `goc_auto.py`,
  * the TSAT (departure-slot) transition tracking of `watcher_loop`.

File I/O is modelled by passing the decoded documents as explicit values;
network sends are modelled by an explicit outcome value (acknowledged or
raised).  Python exceptions are modelled with `Except`.  Timestamps
(`int(time.time())`) are passed in as explicit `Nat` arguments.
-/

namespace HPFGOC

/-- Python `str.upper()` restricted to the ASCII identifiers this program
handles (callsigns, ICAO codes, stand names). -/
def pyUpper (s : String) : String := String.mk (s.data.map Char.toUpper)

/-- Python `str.lower()` for the same ASCII identifier fragment. -/
def pyLower (s : String) : String := String.mk (s.data.map Char.toLower)

/-- Whitespace trimming on a character list: drop leading and trailing
whitespace. -/
def trimChars (cs : List Char) : List Char :=
  ((cs.dropWhile Char.isWhitespace).reverse.dropWhile Char.isWhitespace).reverse

/-- Python `str.strip()` (whitespace trimming on both ends). -/
def pyStrip (s : String) : String := String.mk (trimChars s.data)

/-- Python `x or default` on an optional string field: a missing field or an
empty string both fall back to the default (empty strings are falsy). -/
def pyOrStr (o : Option String) (d : String) : String :=
  match o with
  | some s => if s == "" then d else s
  | none => d

/-- Embeds `normalize_callsign` from `goc_auto.py` (and, identically,
`goc_stand_100nm.py`): `(cs or "").strip().upper()`. -/
def normalize_callsign (cs : String) : String := pyUpper (pyStrip cs)

/-- The inline stand normalization `stand.strip().upper()` used by the rule
engine and the LRU pool selector. -/
def normStand (s : String) : String := pyUpper (pyStrip s)

/-- The leading alphabetic run of a character list: the `for ch in cs`
loop body shared by both callsign-prefix variants (append while
`ch.isalpha()`, break at the first non-letter). -/
def alphaRun (cs : List Char) : List Char := cs.takeWhile Char.isAlpha

/-- Embeds `callsign_prefix` from `goc_auto.py`: normalize, then keep the leading
alphabetic run (`pref = ""` initially). -/
def callsign_pref (cs : String) : String :=
  String.mk (alphaRun (normalize_callsign cs).data)

/-- Embeds `callsign_prefix` from `goc_stand_100nm.py`: the same loop, but the
accumulator is initialized to the literal `"HPF"` instead of the empty
string, so the result is `"HPF"` followed by the alphabetic run. -/
def callsign_pref_100 (cs : String) : String :=
  String.mk ("HPF".data ++ alphaRun (normalize_callsign cs).data)

/-- The `stands` object of a rule in a gate-rules JSON document
(`goc_auto.py`): optional `type` tag, optional fixed `stand` value, and a
`candidates` list (`stands.get("candidates") or []` makes an absent list
and an empty list indistinguishable, so a plain list is faithful). -/
structure Stands where
  stype : Option String
  stand : Option String
  candidates : List String
deriving DecidableEq, Repr

/-- One rule of a gate-rules JSON document.  `priority` is
`int(r.get("priority", 0))`; a match list that is absent (or not a list)
is `none`; `label` and `name` are the optional display fields. -/
structure Rule where
  priority : Int
  matchCsPref : Option (List String)
  matchAcIcao : Option (List String)
  stands : Stands
  label : Option String
  name : Option String
deriving DecidableEq, Repr

/-- A decoded gate-rules document: `doc.get("rules", []) or []`. -/
structure GateDoc where
  rules : List Rule
deriving DecidableEq, Repr

/-- The per-airport LRU map `{stand: lastAssignedTimestamp}`.  Python dict
keys here are strings, except that `select_stand_from_pool` can write the
key `None` when called with an empty candidate list (`best` stays `None`
and `airport_map[best] = now` still executes); `noneKey` records that
entry. -/
structure AirportMap where
  entries : List (String × Nat)
  noneKey : Option Nat
deriving DecidableEq, Repr

/-- The empty per-airport LRU map. -/
def emptyAirportMap : AirportMap := ⟨[], none⟩

/-- Embeds `int(airport_map.get(s, 0))`: the stored timestamp of a stand, absent
stands counting as 0. -/
def lookupTs (m : AirportMap) (s : String) : Nat :=
  match m.entries.find? (fun e => e.fst == s) with
  | some e => e.snd
  | none => 0

/-- Python dict assignment `airport_map[k] = v` (update in place when the
key exists, else insert; `k = none` models the `None` key). -/
def setTs (m : AirportMap) (k : Option String) (v : Nat) : AirportMap :=
  match k with
  | none => { m with noneKey := some v }
  | some s =>
    if (m.entries.find? (fun e => e.fst == s)).isSome then
      { m with entries := m.entries.map (fun e => if e.fst == s then (e.fst, v) else e) }
    else
      { m with entries := m.entries ++ [(s, v)] }

/-- The whole persisted LRU state: airport code to per-airport map
(`lru_state.json`). -/
structure LruState where
  airports : List (String × AirportMap)
deriving DecidableEq, Repr

/-- The empty LRU state (fresh `lru_state.json`). -/
def emptyLru : LruState := ⟨[]⟩

/-- Embeds the read side of `lru_state.setdefault(airport, \x7b\x7d)`: the airport's map, or
an empty one. -/
def getAirportMap (st : LruState) (apt : String) : AirportMap :=
  match st.airports.find? (fun e => e.fst == apt) with
  | some e => e.snd
  | none => emptyAirportMap

/-- Net effect on the LRU state of `setdefault` plus the in-place mutation
of the airport's map: update the airport's entry, inserting it if absent. -/
def setAirportMap (st : LruState) (apt : String) (m : AirportMap) : LruState :=
  if (st.airports.find? (fun e => e.fst == apt)).isSome then
    ⟨st.airports.map (fun e => if e.fst == apt then (e.fst, m) else e)⟩
  else
    ⟨st.airports ++ [(apt, m)]⟩

/-- The scanning loop of `select_stand_from_pool` (`goc_auto.py`):
`best`/`best_ts` accumulator over the candidates; each candidate is
normalized (`stand.strip().upper()`), its timestamp looked up with
default 0, and the accumulator replaced on `best is None or ts < best_ts`. -/
def selLoop (m : AirportMap) : List String → Option (String × Nat) → Option (String × Nat)
  | [], acc => acc
  | c :: rest, acc =>
    let s := normStand c
    let ts := lookupTs m s
    match acc with
    | none => selLoop m rest (some (s, ts))
    | some (b, bts) =>
      if ts < bts then selLoop m rest (some (s, ts)) else selLoop m rest (some (b, bts))

/-- Embeds `select_stand_from_pool` from `goc_auto.py` (the `goc_stand_100nm.py`
copy is textually identical).  `now` stands for `int(time.time())`.
Returns the chosen stand (`none` when the candidate list is empty, which
is what the Python function returns then despite its `-> str` annotation)
and the mutated LRU state: the chosen key — possibly the `None` key — is
stamped with `now`. -/
def select_stand_from_pool (apt : String) (candidates : List String)
    (st : LruState) (now : Nat) : Option String × LruState :=
  let m := getAirportMap st apt
  match selLoop m candidates none with
  | none => (none, setAirportMap st apt (setTs m none now))
  | some (b, _) => (some b, setAirportMap st apt (setTs m (some b) now))

/-- Embeds `match_rule` from `goc_auto.py`: each present, non-empty match list
must contain the context value (uppercased members); an absent list or an
empty list is a wildcard. -/
def match_rule (r : Rule) (pr ac : String) : Bool :=
  (match r.matchCsPref with
   | some l => l.isEmpty || (l.map pyUpper).contains pr
   | none => true) &&
  (match r.matchAcIcao with
   | some l => l.isEmpty || (l.map pyUpper).contains ac
   | none => true)

/-- Insert one rule into an already priority-descending list, placing it
after every rule of strictly higher priority and before the first rule of
equal-or-lower priority (so equal priorities keep declaration order). -/
def insRule (x : Rule) : List Rule → List Rule
  | [] => [x]
  | y :: ys => if x.priority < y.priority then y :: insRule x ys else x :: y :: ys

/-- Embeds `sorted(rules, key=lambda r: int(r.get("priority", 0)), reverse=True)`
from `predict_stand`: Python's stable sort, descending by priority.  A
stable sort's output is uniquely determined by sortedness plus stability,
so this stable insertion sort is extensionally the same function. -/
def sortRules : List Rule → List Rule
  | [] => []
  | x :: xs => insRule x (sortRules xs)

/-- Embeds `(stands.get("type") or "pool").strip().lower()`. -/
def ruleStype (r : Rule) : String := pyLower (pyStrip (pyOrStr r.stands.stype "pool"))

/-- Embeds `(stands.get("stand") or "").strip().upper()`. -/
def ruleFixedStand (r : Rule) : String := normStand (pyOrStr r.stands.stand "")

/-- Embeds `(rule.get("label") or rule.get("name") or "APRON").strip()`. -/
def ruleLabel (r : Rule) : String := pyStrip (pyOrStr r.label (pyOrStr r.name "APRON"))

/-- Embeds `[c.strip().upper() for c in candidates if str(c).strip()]`: drop the
blank candidates, normalize the rest. -/
def ruleCands (r : Rule) : List String :=
  (r.stands.candidates.filter (fun c => pyStrip c != "")).map normStand

/-- The rule-scanning loop of `predict_stand` (`goc_auto.py`), over the
already-sorted rules: skip non-matching rules; a matching `fixed` rule
with a non-blank stand resolves directly; otherwise the rule's own
(filtered) pool candidates are tried, and only an empty pool falls through
to the next rule; exhaustion yields the `("TBD", "APRON")` sentinel.  (The
`none` branch of the pool match cannot occur: the candidate list is
non-empty there, so the selector returns a stand.) -/
def scanRules (apt pr ac : String) (now : Nat) : List Rule → LruState → (String × String) × LruState
  | [], st => (("TBD", "APRON"), st)
  | r :: rest, st =>
    if match_rule r pr ac then
      if ruleStype r == "fixed" && ruleFixedStand r != "" then
        ((ruleFixedStand r, ruleLabel r), st)
      else
        let cands := ruleCands r
        if cands.isEmpty then
          scanRules apt pr ac now rest st
        else
          match select_stand_from_pool apt cands st now with
          | (some s, st') => ((s, ruleLabel r), st')
          | (none, st') => (("", ruleLabel r), st')
    else scanRules apt pr ac now rest st

/-- The gate-rules directory, modelled as the decoded documents: one entry
per airport whose `gates/{icao}.json` file exists and decodes to a
non-empty document. -/
abbrev GatesDir := List (String × GateDoc)

/-- Embeds `load_gate_rules` from `goc_auto.py`: look the airport up in the gates
directory; a missing (or empty, or undecodable) document raises
`FileNotFoundError(f"Missing gate rules: {path}")`, modelled as `Except.error`. -/
def load_gate_rules (gates : GatesDir) (icao : String) : Except String GateDoc :=
  match gates.find? (fun e => e.fst == icao) with
  | some e => Except.ok e.snd
  | none => Except.error ("Missing gate rules: " ++ icao)

/-- Embeds `predict_stand` from `goc_auto.py`: load the airport's rules (which can
raise), sort them by priority descending (stable), build the context
(normalized callsign prefix and aircraft code), and scan.  Returns the
`{stand, label}` pair and the threaded LRU state. -/
def predict_stand (gates : GatesDir) (apt cs ac : String) (st : LruState)
    (now : Nat) : Except String ((String × String) × LruState) :=
  match load_gate_rules gates apt with
  | Except.error e => Except.error e
  | Except.ok doc =>
    Except.ok (scanRules apt (callsign_pref cs) (pyUpper (pyStrip ac)) now (sortRules doc.rules) st)

/-- The persisted sent-flag store (`sent_flags.json`): the watcher only
ever writes `True` under a key, so the store is the set of keys present.
`sent_flags.get(key)` is truthy exactly when the key is in `keys`. -/
structure SentFlags where
  keys : List String
deriving DecidableEq, Repr

/-- The empty flag store (fresh `sent_flags.json`). -/
def emptyFlags : SentFlags := ⟨[]⟩

/-- The one-shot trigger key `f"{cs}|{arr}|stand100nm_sent"`. -/
def sentKey (cs arr : String) : String := cs ++ "|" ++ arr ++ "|stand100nm_sent"

/-- The guard `if sent_flags.get(sent_key): continue` read positively: the
trigger may still fire exactly when the key is not yet in the store. -/
def shouldFire (flags : SentFlags) (key : String) : Bool := !(flags.keys.contains key)

/-- Embeds `sent_flags[key] = True` on a key that is not yet present (the only
way the watcher writes the store: the guard has already skipped present
keys). -/
def markFired (flags : SentFlags) (key : String) : SentFlags := ⟨flags.keys ++ [key]⟩

/-- Outcome of one `hoppie_telex` call: the server's acknowledgement text,
or a raised exception (HTTP error status, timeout, ...). -/
inductive SendOutcome where
  | ok (resp : String)
  | fail (msg : String)
deriving DecidableEq, Repr

/-- One flight as seen by the stand-trigger section of `watcher_loop`
(`goc_auto.py`), after the preliminary guards (arrival in `AIRPORTS`,
coordinates present, arrival in `AIRPORT_COORDS`) have passed.  `within`
abstracts the floating-point test `dist_nm <= TRIGGER_NM`; `deliver` is
the outcome the `hoppie_telex` call would have if attempted. -/
structure StandObs where
  cs : String
  arr : String
  ac : String
  within : Bool
  deliver : SendOutcome
deriving DecidableEq, Repr

/-- The per-flight body of the `ARR STAND @100NM (ONE-SHOT)` section of
`watcher_loop` (`goc_auto.py` lines 456-472).  Returns the new flag store,
the new LRU state, and whether this flight set `changed_state_files`.
Branches, in source order: flagged key skips everything; outside the
trigger distance nothing happens; `predict_stand` raising
`FileNotFoundError` is caught (state untouched, because `load_gate_rules`
raises before any LRU mutation); a raising `hoppie_telex` is caught, but
the LRU mutation made by `predict_stand` is kept while the flag is NOT
set; only a completed send sets the flag and `changed_state_files`. -/
def standStep (gates : GatesDir) (o : StandObs) (now : Nat)
    (flags : SentFlags) (st : LruState) : SentFlags × LruState × Bool :=
  let key := sentKey o.cs o.arr
  if flags.keys.contains key then (flags, st, false)
  else if o.within then
    match predict_stand gates o.arr o.cs o.ac st now with
    | Except.error _ => (flags, st, false)
    | Except.ok (_pred, st') =>
      match o.deliver with
      | SendOutcome.ok _ => (markFired flags key, st', true)
      | SendOutcome.fail _ => (flags, st', false)
  else (flags, st, false)

/-- The stand-trigger section of one poll: fold `standStep` over the
flights of the snapshot, accumulating `changed_state_files`. -/
def pollStands (gates : GatesDir) (now : Nat) :
    List StandObs → SentFlags → LruState → Bool → SentFlags × LruState × Bool
  | [], flags, st, changed => (flags, st, changed)
  | o :: os, flags, st, changed =>
    let r := standStep gates o now flags st
    pollStands gates now os r.fst r.snd.fst (changed || r.snd.snd)

/-- In-memory and on-disk (`state/*.json`) halves of the watcher state. -/
structure ProcState where
  flags : SentFlags
  lru : LruState
  diskFlags : SentFlags
  diskLru : LruState
deriving DecidableEq, Repr

/-- One event in the life of the watcher process: a poll cycle (with its
flight snapshot and clock reading) or a process restart, which reloads the
in-memory state from the persisted files. -/
inductive GocEvent where
  | poll (obs : List StandObs) (now : Nat)
  | restart
deriving DecidableEq, Repr

/-- Apply one event.  A poll runs the stand-trigger section and then, if
`changed_state_files` was set, `save_json`s both stores (disk := memory).
A restart reloads both stores from disk (`load_json` at the top of
`watcher_loop`). -/
def applyEvent (gates : GatesDir) : GocEvent → ProcState → ProcState
  | GocEvent.poll obs now, p =>
    let r := pollStands gates now obs p.flags p.lru false
    if r.snd.snd then ⟨r.fst, r.snd.fst, r.fst, r.snd.fst⟩
    else ⟨r.fst, r.snd.fst, p.diskFlags, p.diskLru⟩
  | GocEvent.restart, p => ⟨p.diskFlags, p.diskLru, p.diskFlags, p.diskLru⟩

/-- Run a sequence of events. -/
def runEvents (gates : GatesDir) : List GocEvent → ProcState → ProcState
  | [], p => p
  | e :: es, p => runEvents gates es (applyEvent gates e p)

/-- The two TSAT states of `tsat_state_for` in `goc_auto.py`: present in
the CDM table with a value, or everything else. -/
inductive TsatState where
  | tsat_assigned
  | in_cdm_but_no_tsat
deriving DecidableEq, Repr

/-- Embeds `tsat_state_for` from `goc_auto.py`, at one airport's CDM table:
callsigns absent from the table give `(IN_CDM_BUT_NO_TSAT, None)`, present
ones `(TSAT_ASSIGNED, tsat)`. -/
def tsat_state_for (table : List (String × String)) (cs : String) :
    TsatState × Option String :=
  match table.find? (fun e => e.fst == cs) with
  | some e => (TsatState.tsat_assigned, some e.snd)
  | none => (TsatState.in_cdm_but_no_tsat, none)

/-- The in-memory transition log `last : (cs, dep) -> (state, tsat)`. -/
abbrev LastMap := List ((String × String) × (TsatState × Option String))

/-- Embeds `last.get(key)`. -/
def lookupLast (last : LastMap) (cs dep : String) : Option (TsatState × Option String) :=
  (last.find? (fun e => e.fst == (cs, dep))).map (fun e => e.snd)

/-- Embeds `last[key] = curr` (update or insert). -/
def setLast (last : LastMap) (cs dep : String) (curr : TsatState × Option String) : LastMap :=
  if (List.find? (fun e => e.fst == (cs, dep)) last).isSome then
    last.map (fun e => if e.fst == (cs, dep) then (e.fst, curr) else e)
  else last ++ [((cs, dep), curr)]

/-- The per-flight body of the `TSAT tracking` section of `watcher_loop`
(`goc_auto.py` lines 414-435): when the observed `(state, tsat)` tuple
differs from the last recorded one, record it and — only when the state is
`TSAT_ASSIGNED` — send the TSAT UPDATE telex (the other branch merely
logs to the console).  Returns whether a telex send was attempted, and the
new transition log. -/
def tsatStep (last : LastMap) (cs dep : String) (curr : TsatState × Option String) :
    Bool × LastMap :=
  if lookupLast last cs dep == some curr then (false, last)
  else (curr.fst == TsatState.tsat_assigned, setLast last cs dep curr)

/-- The timestamp the selection loop sees for a raw candidate `c`:
lookup of the normalized name, default 0. -/
def tsOf (m : AirportMap) (c : String) : Nat := lookupTs m (normStand c)

/-- Fixture: the rule set of the spec's end-to-end pool scenario —
`{priority: 10, match: {callsignPrefixes: ["HPF"]}, resolution: Pool{["M1", "M2"]}}`. -/
def rule6 : Rule := ⟨10, some ["HPF"], none, ⟨none, none, ["M1", "M2"]⟩, none, none⟩

/-- Fixture: one airport (`LEBL`) configured with `rule6`. -/
def gates6 : GatesDir := [("LEBL", ⟨[rule6]⟩)]

/-- Fixture: a match-all rule whose stands object is `fixed` with a blank
stand value but a non-empty candidates list. -/
def ruleBlankFixed : Rule := ⟨5, none, none, ⟨some "fixed", some "", ["A1"]⟩, some "L1", none⟩

/-- Fixture: a match-all rule, `fixed` with a blank stand value and no
candidates. -/
def ruleBlankFixedEmpty : Rule := ⟨5, none, none, ⟨some "fixed", some "", []⟩, some "L1", none⟩

/-- Fixture: a lower-priority match-all rule fixed to stand `B2`. -/
def ruleNext : Rule := ⟨1, none, none, ⟨some "fixed", some "B2", []⟩, some "L2", none⟩

/-- Fixture: `LEVC` configured with the blank-fixed rule followed by the
`B2` rule. -/
def gates8 : GatesDir := [("LEVC", ⟨[ruleBlankFixed, ruleNext]⟩)]

/-- Fixture: `LEVC` configured with a single match-all one-stand pool. -/
def gates1 : GatesDir := [("LEVC", ⟨[⟨0, none, none, ⟨none, none, ["M1"]⟩, none, none⟩]⟩)]

/-- Fixture: a flight inside the trigger distance whose telex send raises. -/
def o1 : StandObs := ⟨"HPF1", "LEVC", "", true, SendOutcome.fail "http 500"⟩

/-- Fixture: a transition log that last saw `HPF1 @ LEVC` with an assigned
TSAT of `1230`. -/
def last5 : LastMap := [(("HPF1", "LEVC"), (TsatState.tsat_assigned, some "1230"))]

end HPFGOC

namespace HPFGOC

/-- C10: the two duplicated callsign-prefix variants are claimed to be
equivalent.  They are not: at `"VLG123"` the `goc_auto.py` variant returns
`"VLG"` while the `goc_stand_100nm.py` variant returns `"HPFVLG"` (its
accumulator starts at `"HPF"`), although its own comment documents
`VLG123 -> VLG`.  This theorem evaluates both variants at that failing
input. -/
theorem C10_variants_disagree :
    callsign_pref "VLG123" = "VLG" ∧
    callsign_pref_100 "VLG123" = "HPFVLG" ∧
    callsign_pref "VLG123" ≠ callsign_pref_100 "VLG123" := by
  refine ⟨rfl, rfl, ?_⟩
  decide

end HPFGOC

namespace HPFGOC

/-- C1 counterexample: the claim says a delivery failure still marks the
triggering sent-flag as fired.  Concretely: flight `o1` is inside the
trigger distance with configured gates, its send raises, and afterwards
the flag store is still empty and `shouldFire` still true — the flag was
NOT marked and a retry will be attempted at the next poll. -/
theorem C1_cex :
    (standStep gates1 o1 7 emptyFlags emptyLru).fst = emptyFlags ∧
    shouldFire (standStep gates1 o1 7 emptyFlags emptyLru).fst (sentKey "HPF1" "LEVC") = true := by
  decide

/-- C1 (amended): if the outbound send fails with a delivery error while
processing a proximity-to-arrival stand trigger, the triggering sent-flag
is NOT marked fired (the mark happens only after a completed send), so the
trigger remains eligible and a retry is attempted on later polls. -/
theorem C1_amended (gates : GatesDir) (o : StandObs) (now : Nat)
    (flags : SentFlags) (st : LruState) (msg : String)
    (h : o.deliver = SendOutcome.fail msg) :
    (standStep gates o now flags st).fst = flags := by
  obtain ⟨ocs, oarr, oac, owithin, odv⟩ := o
  simp only at h
  subst h
  by_cases h1 : sentKey ocs oarr ∈ flags.keys
  · simp [standStep, h1]
  · by_cases h2 : owithin = true
    · rcases hp : predict_stand gates oarr ocs oac st now with e | ⟨pred, st'⟩
      · simp [standStep, h1, h2, hp]
      · simp [standStep, h1, h2, hp]
    · simp [standStep, h1, h2]

/-- Witness for the amended C1 at the concrete fixture. -/
theorem C1_amended_witness :
    o1.deliver = SendOutcome.fail "http 500" ∧
    (standStep gates1 o1 7 emptyFlags emptyLru).fst = emptyFlags :=
  ⟨rfl, C1_amended gates1 o1 7 emptyFlags emptyLru "http 500" rfl⟩

/-- C2 counterexample: the claim says a stand assignment for an airport
with no configured rule set returns the `("TBD", "APRON")` sentinel
instead of raising.  Concretely, with an empty gates directory the
assignment raises `FileNotFoundError` — it does not return the sentinel. -/
theorem C2_cex :
    predict_stand [] "LEVC" "HPF1" "" emptyLru 5 =
      Except.error "Missing gate rules: LEVC" := by
  rfl

/-- C2 (amended): an airport with no configured rule set makes the
assignment attempt raise; the watcher catches that exception, so the
process keeps running with the flag store, LRU state and
`changed_state_files` untouched — but no sentinel result is produced for
that assignment.  The `("TBD", "APRON")` sentinel arises only when a rule
document exists and no rule yields a usable resolution (second conjunct:
a present document with an empty rule list). -/
theorem C2_amended (gates : GatesDir) (o : StandObs) (now : Nat)
    (flags : SentFlags) (st : LruState)
    (h : gates.find? (fun e => e.fst == o.arr) = none) :
    standStep gates o now flags st = (flags, st, false) ∧
    ∀ (apt cs ac : String) (st2 : LruState) (now2 : Nat),
      predict_stand [(apt, ⟨[]⟩)] apt cs ac st2 now2 =
        Except.ok (("TBD", "APRON"), st2) := by
  constructor
  · obtain ⟨ocs, oarr, oac, owithin, odv⟩ := o
    simp only at h
    by_cases h1 : sentKey ocs oarr ∈ flags.keys
    · simp [standStep, h1]
    · by_cases h2 : owithin = true
      · simp [standStep, h1, h2, predict_stand, load_gate_rules, h]
      · simp [standStep, h1, h2]
  · intro apt cs ac st2 now2
    simp [predict_stand, load_gate_rules, List.find?, sortRules, scanRules]

/-- Witness for the amended C2 at the empty gates directory. -/
theorem C2_amended_witness :
    (List.find? (fun e => e.fst == o1.arr) ([] : GatesDir) = none) ∧
    standStep [] o1 7 emptyFlags emptyLru = (emptyFlags, emptyLru, false) :=
  ⟨rfl, (C2_amended [] o1 7 emptyFlags emptyLru rfl).left⟩

end HPFGOC

namespace HPFGOC

/-- C5 counterexample: the claim says a slot-time notification fires if
and only if the observed `(stateKind, value)` tuple differs from the last
observed tuple.  Concretely: the last tuple was `(TSAT_ASSIGNED, "1230")`,
the observed tuple `(IN_CDM_BUT_NO_TSAT, None)` differs from it, yet no
telex is sent (the code only logs the non-assigned branch to the
console). -/
theorem C5_cex :
    (tsatStep last5 "HPF1" "LEVC" (TsatState.in_cdm_but_no_tsat, none)).fst = false ∧
    (lookupLast last5 "HPF1" "LEVC" ==
      some (TsatState.in_cdm_but_no_tsat, (none : Option String))) = false := by
  decide

/-- C5 (amended): a slot-time notification (TSAT telex) fires if and only
if the observed `(stateKind, value)` tuple differs from the last observed
tuple for that `(callsign, airport)` pair AND the observed state is
`TSAT_ASSIGNED`.  In particular the same tuple on consecutive polls does
not re-notify, a change of the assigned time value does re-notify, and a
transition away from `TSAT_ASSIGNED` is logged but sends nothing. -/
theorem C5_amended (last : LastMap) (cs dep : String)
    (curr : TsatState × Option String) :
    (tsatStep last cs dep curr).fst = true ↔
      (lookupLast last cs dep ≠ some curr ∧ curr.fst = TsatState.tsat_assigned) := by
  unfold tsatStep
  by_cases h : lookupLast last cs dep = some curr
  · simp [h]
  · simp [h]

/-- C8 counterexample: the claim says a matching Fixed rule with a blank
resource value makes the engine continue scanning further rules rather
than resolving anything from that rule.  Concretely, `gates8` has a
matching blank-fixed rule that also carries the pool candidate `A1`, and a
further rule fixed to `B2`: the engine resolves `A1` from the blank-fixed
rule itself (second conjunct: scanning on to the further rule alone would
have produced `B2`). -/
theorem C8_cex :
    predict_stand gates8 "LEVC" "HPF1" "" emptyLru 7 =
      Except.ok (("A1", "L1"), ⟨[("LEVC", ⟨[("A1", 7)], none⟩)]⟩) ∧
    predict_stand [("LEVC", ⟨[ruleNext]⟩)] "LEVC" "HPF1" "" emptyLru 7 =
      Except.ok (("B2", "L2"), emptyLru) := by
  exact ⟨rfl, rfl⟩

/-- C8 (amended): a matching rule whose stands type is `fixed` with a
blank resource value falls through to that same rule's own (blank-filtered)
pool candidates; only when those are empty does the engine continue
scanning further rules.  This theorem states the continue-scanning case:
blank fixed value and no usable candidates skip the rule entirely. -/
theorem C8_amended (apt pr ac : String) (now : Nat) (r : Rule)
    (rest : List Rule) (st : LruState)
    (hm : match_rule r pr ac = true) (hf : ruleStype r = "fixed")
    (hb : ruleFixedStand r = "") (hc : ruleCands r = []) :
    scanRules apt pr ac now (r :: rest) st = scanRules apt pr ac now rest st := by
  conv_lhs => rw [scanRules]
  simp [hm, hf, hb, hc]

/-- Witness for the amended C8: the blank-fixed no-candidates rule is
skipped in favour of the rest of the rule list. -/
theorem C8_amended_witness :
    (match_rule ruleBlankFixedEmpty "HPF" "" = true ∧
      ruleStype ruleBlankFixedEmpty = "fixed" ∧
      ruleFixedStand ruleBlankFixedEmpty = "" ∧
      ruleCands ruleBlankFixedEmpty = []) ∧
    scanRules "LEVC" "HPF" "" 7 [ruleBlankFixedEmpty, ruleNext] emptyLru =
      scanRules "LEVC" "HPF" "" 7 [ruleNext] emptyLru :=
  ⟨⟨rfl, rfl, rfl, rfl⟩,
    C8_amended "LEVC" "HPF" "" 7 ruleBlankFixedEmpty [ruleNext] emptyLru rfl rfl rfl rfl⟩

/-- C9 counterexample: the claim says calling the LRU pool selector with
an empty candidate list is an error that must not return a resource or
silently mutate the LRU state.  Concretely the call returns normally with
`None` and DOES silently mutate the state: it stamps the current time
under the `None` key of the airport's map. -/
theorem C9_cex :
    select_stand_from_pool "LEBL" [] emptyLru 99 =
      ((none : Option String), ⟨[("LEBL", ⟨[], some 99⟩)]⟩) ∧
    ((select_stand_from_pool "LEBL" [] emptyLru 99).snd == emptyLru) = false := by
  decide

/-- C9 (amended): calling the selector with an empty candidate list does
not raise: it returns no resource (`None`, despite the declared `-> str`
return type) and mutates the LRU state, stamping `now` under the `None`
key of the airport's map.  (The assignment engine itself never makes such
a call: empty filtered pools are skipped before the selector is invoked.) -/
theorem C9_amended (apt : String) (st : LruState) (now : Nat) :
    select_stand_from_pool apt [] st now =
      ((none : Option String), setAirportMap st apt (setTs (getAirportMap st apt) none now)) := by
  rfl

end HPFGOC

namespace HPFGOC

/-- C6: with the single rule `{priority: 10, match: {callsignPrefixes:
["HPF"]}, resolution: Pool{["M1", "M2"]}}` at one airport and an initially
empty LRU state, two successive assignment calls for `HPF100` and `HPF200`
return `M1` then `M2`: both callsigns' alphabetic prefixes are `HPF`, both
stands start at timestamp 0, position order breaks the first tie, and the
first call's (positive) timestamp makes `M2` the least-recently-used stand
on the second call. -/
theorem C6_pool_rotation (now1 now2 : Nat) (h : 0 < now1) :
    ∃ st1 st2,
      predict_stand gates6 "LEBL" "HPF100" "" emptyLru now1 =
        Except.ok (("M1", "APRON"), st1) ∧
      predict_stand gates6 "LEBL" "HPF200" "" st1 now2 =
        Except.ok (("M2", "APRON"), st2) := by
  obtain ⟨k, rfl⟩ : ∃ k, now1 = k + 1 := ⟨now1 - 1, by omega⟩
  refine ⟨⟨[("LEBL", ⟨[("M1", k + 1)], none⟩)]⟩,
    ⟨[("LEBL", ⟨[("M1", k + 1), ("M2", now2)], none⟩)]⟩, rfl, ?_⟩
  simp [predict_stand, load_gate_rules, gates6, rule6, sortRules, insRule, scanRules,
    match_rule, ruleStype, ruleFixedStand, ruleLabel, ruleCands, pyOrStr,
    select_stand_from_pool, selLoop, lookupTs, setTs, getAirportMap, setAirportMap,
    callsign_pref, normalize_callsign, normStand, pyUpper, pyLower, pyStrip, trimChars,
    alphaRun, List.find?, List.filter]

/-- Witness for C6 at concrete clock readings. -/
theorem C6_pool_rotation_witness :
    0 < 3 ∧
    ∃ st1 st2,
      predict_stand gates6 "LEBL" "HPF100" "" emptyLru 3 =
        Except.ok (("M1", "APRON"), st1) ∧
      predict_stand gates6 "LEBL" "HPF200" "" st1 5 =
        Except.ok (("M2", "APRON"), st2) :=
  ⟨by decide, C6_pool_rotation 3 5 (by decide)⟩

end HPFGOC

namespace HPFGOC

/-- A single stand-trigger step never removes a key from the flag store. -/
theorem standStep_keeps_key (gates : GatesDir) (o : StandObs) (now : Nat)
    (flags : SentFlags) (st : LruState) (k : String)
    (h : k ∈ flags.keys) : k ∈ ((standStep gates o now flags st).fst).keys := by
  obtain ⟨ocs, oarr, oac, owithin, odv⟩ := o
  by_cases h1 : sentKey ocs oarr ∈ flags.keys
  · simpa [standStep, h1] using h
  · by_cases h2 : owithin = true
    · rcases hp : predict_stand gates oarr ocs oac st now with e | ⟨pred, st'⟩
      · simpa [standStep, h1, h2, hp] using h
      · cases odv with
        | ok resp => simp [standStep, h1, h2, hp, markFired]; exact Or.inl h
        | fail msg => simpa [standStep, h1, h2, hp] using h
    · simpa [standStep, h1, h2] using h

/-- A stand-trigger step that reports no change left the flag store as it
was. -/
theorem standStep_unchanged (gates : GatesDir) (o : StandObs) (now : Nat)
    (flags : SentFlags) (st : LruState)
    (h : (standStep gates o now flags st).snd.snd = false) :
    (standStep gates o now flags st).fst = flags := by
  obtain ⟨ocs, oarr, oac, owithin, odv⟩ := o
  by_cases h1 : sentKey ocs oarr ∈ flags.keys
  · simp [standStep, h1]
  · by_cases h2 : owithin = true
    · rcases hp : predict_stand gates oarr ocs oac st now with e | ⟨pred, st'⟩
      · simp [standStep, h1, h2, hp]
      · cases odv with
        | ok resp => simp [standStep, h1, h2, hp] at h
        | fail msg => simp [standStep, h1, h2, hp]
    · simp [standStep, h1, h2]

/-- The stand-trigger section of a poll never removes a key from the flag
store. -/
theorem pollStands_keeps_key (gates : GatesDir) (now : Nat) :
    ∀ (os : List StandObs) (flags : SentFlags) (st : LruState) (c : Bool) (k : String),
      k ∈ flags.keys → k ∈ ((pollStands gates now os flags st c).fst).keys := by
  intro os
  induction os with
  | nil => intro flags st c k h; exact h
  | cons o os ih =>
    intro flags st c k h
    exact ih _ _ _ k (standStep_keeps_key gates o now flags st k h)

/-- Once the `changed_state_files` accumulator is set, it stays set for
the rest of the poll. -/
theorem pollStands_changed_stays (gates : GatesDir) (now : Nat) :
    ∀ (os : List StandObs) (flags : SentFlags) (st : LruState),
      (pollStands gates now os flags st true).snd.snd = true := by
  intro os
  induction os with
  | nil => intro flags st; rfl
  | cons o os ih =>
    intro flags st
    have : pollStands gates now (o :: os) flags st true =
        pollStands gates now os (standStep gates o now flags st).fst
          (standStep gates o now flags st).snd.fst
          (true || (standStep gates o now flags st).snd.snd) := rfl
    rw [this, Bool.true_or]
    exact ih _ _

/-- If a whole poll reports no state change, the flag store is unchanged. -/
theorem pollStands_unchanged (gates : GatesDir) (now : Nat) :
    ∀ (os : List StandObs) (flags : SentFlags) (st : LruState) (c : Bool),
      (pollStands gates now os flags st c).snd.snd = false →
      (pollStands gates now os flags st c).fst = flags ∧ c = false := by
  intro os
  induction os with
  | nil => intro flags st c h; exact ⟨rfl, h⟩
  | cons o os ih =>
    intro flags st c h
    have hstep : pollStands gates now (o :: os) flags st c =
        pollStands gates now os (standStep gates o now flags st).fst
          (standStep gates o now flags st).snd.fst
          (c || (standStep gates o now flags st).snd.snd) := rfl
    rw [hstep] at h ⊢
    have hacc : (c || (standStep gates o now flags st).snd.snd) = false := by
      by_contra hne
      have : (c || (standStep gates o now flags st).snd.snd) = true := by
        cases hx : (c || (standStep gates o now flags st).snd.snd)
        · exact absurd hx hne
        · rfl
      rw [this] at h
      rw [pollStands_changed_stays gates now os _ _] at h
      exact absurd h (by decide)
    have hco : c = false ∧ (standStep gates o now flags st).snd.snd = false := by
      rcases Bool.or_eq_false_iff.mp hacc with ⟨hc, hs⟩
      exact ⟨hc, hs⟩
    have hrec := ih (standStep gates o now flags st).fst
      (standStep gates o now flags st).snd.fst
      (c || (standStep gates o now flags st).snd.snd) h
    refine ⟨?_, hco.left⟩
    rw [hrec.left, standStep_unchanged gates o now flags st hco.right]

/-- One event preserves the persistence invariant (`disk = memory` for the
flag store) and keeps any present key present in both halves. -/
theorem applyEvent_inv (gates : GatesDir) (e : GocEvent) (p : ProcState) (k : String)
    (hd : p.diskFlags = p.flags) (hk : k ∈ p.flags.keys) :
    (applyEvent gates e p).diskFlags = (applyEvent gates e p).flags ∧
      k ∈ ((applyEvent gates e p).flags).keys := by
  cases e with
  | restart => exact ⟨rfl, by simpa [applyEvent, hd] using hk⟩
  | poll obs now =>
    by_cases hch : (pollStands gates now obs p.flags p.lru false).snd.snd = true
    · constructor
      · simp [applyEvent, hch]
      · simpa [applyEvent, hch] using pollStands_keeps_key gates now obs p.flags p.lru false k hk
    · have hu := pollStands_unchanged gates now obs p.flags p.lru false (by simpa using hch)
      constructor
      · simp [applyEvent, hch, hu.left, hd]
      · simpa [applyEvent, hch] using pollStands_keeps_key gates now obs p.flags p.lru false k hk

/-- C3: for every key, once the trigger has been marked fired (the key is
in the flag store) and the store is persisted (disk and memory agree, as
they do at every iteration boundary), then over any further sequence of
polls and restarts the key stays present in memory and on disk — the
store is monotonic, a restart reloading the persisted store keeps it — and
`shouldFire` for that key is false for the remainder of the process. -/
theorem C3_one_shot_permanent (gates : GatesDir) (events : List GocEvent)
    (k : String) (p : ProcState)
    (hd : p.diskFlags = p.flags) (hk : k ∈ p.flags.keys) :
    k ∈ ((runEvents gates events p).flags).keys ∧
      k ∈ ((runEvents gates events p).diskFlags).keys ∧
      shouldFire (runEvents gates events p).flags k = false := by
  induction events generalizing p with
  | nil =>
    refine ⟨hk, by rw [runEvents, hd]; exact hk, ?_⟩
    simp [shouldFire, runEvents, hk]
  | cons e es ih =>
    have h1 := applyEvent_inv gates e p k hd hk
    have h2 := ih (applyEvent gates e p) h1.left h1.right
    exact ⟨h2.left, h2.right.left, h2.right.right⟩

/-- Witness for C3: a store already holding key `K`, run through one poll
(with the failing-delivery flight) and a restart. -/
theorem C3_one_shot_permanent_witness :
    ((⟨⟨["K"]⟩, emptyLru, ⟨["K"]⟩, emptyLru⟩ : ProcState).diskFlags =
        (⟨⟨["K"]⟩, emptyLru, ⟨["K"]⟩, emptyLru⟩ : ProcState).flags ∧
      "K" ∈ ((⟨⟨["K"]⟩, emptyLru, ⟨["K"]⟩, emptyLru⟩ : ProcState).flags).keys) ∧
    ("K" ∈ ((runEvents gates1 [GocEvent.poll [o1] 7, GocEvent.restart]
        ⟨⟨["K"]⟩, emptyLru, ⟨["K"]⟩, emptyLru⟩).flags).keys ∧
      "K" ∈ ((runEvents gates1 [GocEvent.poll [o1] 7, GocEvent.restart]
        ⟨⟨["K"]⟩, emptyLru, ⟨["K"]⟩, emptyLru⟩).diskFlags).keys ∧
      shouldFire (runEvents gates1 [GocEvent.poll [o1] 7, GocEvent.restart]
        ⟨⟨["K"]⟩, emptyLru, ⟨["K"]⟩, emptyLru⟩).flags "K" = false) :=
  ⟨⟨rfl, by decide⟩,
    C3_one_shot_permanent gates1 [GocEvent.poll [o1] 7, GocEvent.restart] "K"
      ⟨⟨["K"]⟩, emptyLru, ⟨["K"]⟩, emptyLru⟩ rfl (by decide)⟩

end HPFGOC

namespace HPFGOC

/-- Characterization of the selection loop started with accumulator
`(b, bts)`: either the accumulator survives (and then every remaining
candidate has timestamp at least `bts`), or the result is the first
remaining candidate that strictly improves on every earlier timestamp
(first position attaining the minimum). -/
theorem selLoop_spec (m : AirportMap) (l : List String) :
    ∀ (b : String) (bts : Nat),
      (selLoop m l (some (b, bts)) = some (b, bts) ∧ ∀ c ∈ l, bts ≤ tsOf m c) ∨
      (∃ i ci, l.get? i = some ci ∧
        selLoop m l (some (b, bts)) = some (normStand ci, tsOf m ci) ∧
        tsOf m ci < bts ∧ (∀ c ∈ l, tsOf m ci ≤ tsOf m c) ∧
        ∀ j cj, j < i → l.get? j = some cj → tsOf m ci < tsOf m cj) := by
  induction l with
  | nil => intro b bts; exact Or.inl ⟨rfl, by simp⟩
  | cons c rest ih =>
    intro b bts
    have hunf : selLoop m (c :: rest) (some (b, bts)) =
        if tsOf m c < bts then selLoop m rest (some (normStand c, tsOf m c))
        else selLoop m rest (some (b, bts)) := rfl
    by_cases hlt : tsOf m c < bts
    · rw [hunf, if_pos hlt]
      rcases ih (normStand c) (tsOf m c) with ⟨heq, hmin⟩ |
        ⟨i, ci, hget, heq, hlt2, hmin, hfirst⟩
      · refine Or.inr ⟨0, c, rfl, heq, hlt, ?_, ?_⟩
        · intro x hx
          rcases List.mem_cons.mp hx with rfl | hx'
          · exact le_refl _
          · exact hmin x hx'
        · intro j cj hj hgj
          exact absurd hj (Nat.not_lt_zero j)
      · refine Or.inr ⟨i + 1, ci, by simpa using hget, heq, lt_trans hlt2 hlt, ?_, ?_⟩
        · intro x hx
          rcases List.mem_cons.mp hx with rfl | hx'
          · exact le_of_lt hlt2
          · exact hmin x hx'
        · intro j cj hj hgj
          cases j with
          | zero =>
            have hcj : c = cj := by simpa using hgj
            rw [← hcj]
            exact hlt2
          | succ j' =>
            exact hfirst j' cj (Nat.lt_of_succ_lt_succ hj) (by simpa using hgj)
    · rw [hunf, if_neg hlt]
      have hge : bts ≤ tsOf m c := Nat.le_of_not_lt hlt
      rcases ih b bts with ⟨heq, hmin⟩ | ⟨i, ci, hget, heq, hlt2, hmin, hfirst⟩
      · refine Or.inl ⟨heq, ?_⟩
        intro x hx
        rcases List.mem_cons.mp hx with rfl | hx'
        · exact hge
        · exact hmin x hx'
      · refine Or.inr ⟨i + 1, ci, by simpa using hget, heq, hlt2, ?_, ?_⟩
        · intro x hx
          rcases List.mem_cons.mp hx with rfl | hx'
          · exact le_of_lt (lt_of_lt_of_le hlt2 hge)
          · exact hmin x hx'
        · intro j cj hj hgj
          cases j with
          | zero =>
            have hcj : c = cj := by simpa using hgj
            rw [← hcj]
            exact lt_of_lt_of_le hlt2 hge
          | succ j' =>
            exact hfirst j' cj (Nat.lt_of_succ_lt_succ hj) (by simpa using hgj)

/-- C4: for every non-empty candidate sequence (in the normalized form the
spec's data model prescribes for pool candidates) and any LRU state, the
pool selector returns a member of the candidate sequence whose recorded
timestamp (absent candidates counting as 0) is minimal, and the returned
candidate occupies the earliest position achieving that minimum: every
strictly earlier candidate has a strictly larger timestamp. -/
theorem C4_lru_select (apt : String) (cands : List String) (st : LruState)
    (now : Nat) (h1 : cands ≠ []) (h2 : ∀ c ∈ cands, normStand c = c) :
    ∃ i ci, cands.get? i = some ci ∧ ci ∈ cands ∧
      (select_stand_from_pool apt cands st now).fst = some ci ∧
      (∀ c ∈ cands, lookupTs (getAirportMap st apt) ci ≤ lookupTs (getAirportMap st apt) c) ∧
      ∀ j cj, j < i → cands.get? j = some cj →
        lookupTs (getAirportMap st apt) ci < lookupTs (getAirportMap st apt) cj := by
  obtain ⟨c, rest, rfl⟩ : ∃ c rest, cands = c :: rest := by
    cases cands with
    | nil => exact absurd rfl h1
    | cons c rest => exact ⟨c, rest, rfl⟩
  have hts : ∀ x ∈ c :: rest, tsOf (getAirportMap st apt) x = lookupTs (getAirportMap st apt) x := by
    intro x hx
    rw [tsOf, h2 x hx]
  have hloop : selLoop (getAirportMap st apt) (c :: rest) none =
      selLoop (getAirportMap st apt) rest
        (some (normStand c, tsOf (getAirportMap st apt) c)) := rfl
  rcases selLoop_spec (getAirportMap st apt) rest (normStand c)
      (tsOf (getAirportMap st apt) c) with ⟨heq, hmin⟩ |
      ⟨i, ci, hget, heq, hlt2, hmin, hfirst⟩
  · have hv : selLoop (getAirportMap st apt) (c :: rest) none =
        some (normStand c, tsOf (getAirportMap st apt) c) := hloop.trans heq
    refine ⟨0, c, rfl, List.mem_cons_self c rest, ?_, ?_, ?_⟩
    · simp only [select_stand_from_pool, hv]
      rw [h2 c (List.mem_cons_self c rest)]
    · intro x hx
      rw [← hts c (List.mem_cons_self c rest), ← hts x hx]
      rcases List.mem_cons.mp hx with rfl | hx'
      · exact le_refl _
      · exact hmin x hx'
    · intro j cj hj hgj
      exact absurd hj (Nat.not_lt_zero j)
  · have hmem : ci ∈ c :: rest := List.mem_cons_of_mem c (List.get?_mem hget)
    have hv : selLoop (getAirportMap st apt) (c :: rest) none =
        some (normStand ci, tsOf (getAirportMap st apt) ci) := hloop.trans heq
    refine ⟨i + 1, ci, by simpa using hget, hmem, ?_, ?_, ?_⟩
    · simp only [select_stand_from_pool, hv]
      rw [h2 ci hmem]
    · intro x hx
      rw [← hts ci hmem, ← hts x hx]
      rcases List.mem_cons.mp hx with rfl | hx'
      · exact le_of_lt hlt2
      · exact hmin x hx'
    · intro j cj hj hgj
      have hcjmem : cj ∈ c :: rest := List.get?_mem hgj
      rw [← hts ci hmem, ← hts cj hcjmem]
      cases j with
      | zero =>
        have hcj : c = cj := by simpa using hgj
        rw [← hcj]
        exact hlt2
      | succ j' =>
        exact hfirst j' cj (Nat.lt_of_succ_lt_succ hj) (by simpa using hgj)

/-- Witness for C4 at a concrete pool: candidates `["M2", "M1"]` with `M2`
already used. -/
theorem C4_lru_select_witness :
    ((["M2", "M1"] : List String) ≠ [] ∧ ∀ c ∈ (["M2", "M1"] : List String), normStand c = c) ∧
    (∃ i ci, (["M2", "M1"] : List String).get? i = some ci ∧ ci ∈ (["M2", "M1"] : List String) ∧
      (select_stand_from_pool "LEBL" ["M2", "M1"] ⟨[("LEBL", ⟨[("M2", 5)], none⟩)]⟩ 9).fst = some ci ∧
      (∀ c ∈ (["M2", "M1"] : List String),
        lookupTs (getAirportMap ⟨[("LEBL", ⟨[("M2", 5)], none⟩)]⟩ "LEBL") ci ≤
          lookupTs (getAirportMap ⟨[("LEBL", ⟨[("M2", 5)], none⟩)]⟩ "LEBL") c) ∧
      ∀ j cj, j < i → (["M2", "M1"] : List String).get? j = some cj →
        lookupTs (getAirportMap ⟨[("LEBL", ⟨[("M2", 5)], none⟩)]⟩ "LEBL") ci <
          lookupTs (getAirportMap ⟨[("LEBL", ⟨[("M2", 5)], none⟩)]⟩ "LEBL") cj) :=
  ⟨⟨by decide, by decide⟩,
    C4_lru_select "LEBL" ["M2", "M1"] ⟨[("LEBL", ⟨[("M2", 5)], none⟩)]⟩ 9
      (by decide) (by decide)⟩

end HPFGOC

namespace HPFGOC

/-- Inserting a rule produces a permutation of consing it. -/
theorem insRule_perm (x : Rule) (l : List Rule) : List.Perm (insRule x l) (x :: l) := by
  induction l with
  | nil => exact List.Perm.refl _
  | cons y ys ih =>
    rw [insRule]
    by_cases h : x.priority < y.priority
    · rw [if_pos h]
      exact (List.Perm.cons y ih).trans (List.Perm.swap x y ys)
    · rw [if_neg h]

/-- Inserting into a priority-descending list keeps it priority-descending. -/
theorem insRule_pairwise (x : Rule) (l : List Rule)
    (h : List.Pairwise (fun a b => b.priority ≤ a.priority) l) :
    List.Pairwise (fun a b => b.priority ≤ a.priority) (insRule x l) := by
  induction l with
  | nil => simp [insRule]
  | cons y ys ih =>
    rcases List.pairwise_cons.mp h with ⟨hy, hys⟩
    rw [insRule]
    by_cases hlt : x.priority < y.priority
    · rw [if_pos hlt]
      refine List.pairwise_cons.mpr ⟨?_, ih hys⟩
      intro z hz
      rcases List.mem_cons.mp ((insRule_perm x ys).mem_iff.mp hz) with rfl | hz'
      · exact le_of_lt hlt
      · exact hy z hz'
    · rw [if_neg hlt]
      refine List.pairwise_cons.mpr ⟨?_, h⟩
      intro z hz
      rcases List.mem_cons.mp hz with rfl | hz'
      · exact Int.not_lt.mp hlt
      · exact le_trans (hy z hz') (Int.not_lt.mp hlt)

/-- Filtering an insertion at one priority level: if the inserted rule has
that priority it lands exactly at the front of the level's sublist (every
rule it was placed behind has strictly higher priority), otherwise the
level's sublist is untouched. -/
theorem insRule_filter (x : Rule) (l : List Rule) (p : Int) :
    (insRule x l).filter (fun r => r.priority == p) =
      if x.priority = p then x :: l.filter (fun r => r.priority == p)
      else l.filter (fun r => r.priority == p) := by
  induction l with
  | nil =>
    by_cases hx : x.priority = p
    · have hxb : (x.priority == p) = true := by simpa using hx
      simp [insRule, List.filter, hx, hxb]
    · have hxb : (x.priority == p) = false := by simpa using hx
      simp [insRule, List.filter, hx, hxb]
  | cons y ys ih =>
    rw [insRule]
    by_cases hlt : x.priority < y.priority
    · rw [if_pos hlt]
      by_cases hx : x.priority = p
      · have hy : (y.priority == p) = false := by
          have : y.priority ≠ p := by omega
          simpa using this
        rw [if_pos hx]
        simp only [List.filter_cons, hy, ih, if_pos hx]
        simp [hy]
      · rw [if_neg hx]
        simp only [List.filter_cons, ih, if_neg hx]
    · rw [if_neg hlt]
      by_cases hx : x.priority = p
      · rw [if_pos hx]
        simp [List.filter_cons, hx]
      · rw [if_neg hx]
        have hxb : (x.priority == p) = false := by simpa using hx
        simp [List.filter_cons, hxb]

/-- C7: the assignment engine's rule ordering (`sortRules`, the embedding
of `sorted(rules, key=priority, reverse=True)` used by `predict_stand`) is
a permutation of the declared rules, is sorted by priority descending, and
is stable: for every priority level, the rules of that priority appear in
exactly their original declaration order. -/
theorem C7_sort_stable (rules : List Rule) (p : Int) :
    List.Perm (sortRules rules) rules ∧
    List.Pairwise (fun a b => b.priority ≤ a.priority) (sortRules rules) ∧
    (sortRules rules).filter (fun r => r.priority == p) =
      rules.filter (fun r => r.priority == p) := by
  refine ⟨?_, ?_, ?_⟩
  · induction rules with
    | nil => exact List.Perm.refl _
    | cons x xs ih => exact (insRule_perm x (sortRules xs)).trans (List.Perm.cons x ih)
  · induction rules with
    | nil => exact List.Pairwise.nil
    | cons x xs ih => exact insRule_pairwise x (sortRules xs) ih
  · induction rules with
    | nil => rfl
    | cons x xs ih =>
      rw [sortRules, insRule_filter, List.filter_cons]
      by_cases hx : x.priority = p
      · have hxb : (x.priority == p) = true := by simpa using hx
        rw [if_pos hx, ih]
        simp [hxb]
      · have hxb : (x.priority == p) = false := by simpa using hx
        rw [if_neg hx, ih]
        simp [hxb]

end HPFGOC
